import Mathlib

/-!
Verification of the fufu terminal-session controller (src/src/bot.js, plus the
two earlier rewrites kept in the repository).  JavaScript strings are modelled
as Lean `String`s (lists of characters); all primitive operations the bot uses
(`split`, `trim`, `includes`, `startsWith`, `slice`, `lastIndexOf`, regexes)
are re-implemented below at the character-list level so that every definition
evaluates by kernel reduction.
-/

namespace Fufu

/-- JS `Array.prototype.slice(-n)`: the last `n` elements (all of them when the
list is shorter). -/
def lastN {α : Type _} (n : Nat) (l : List α) : List α :=
  l.drop (l.length - n)

/-- Substring test on character lists: does `s` contain `sub` contiguously?
Models JS `String.prototype.includes`. -/
def listContainsSub (sub : List Char) : List Char → Bool
  | [] => sub.isEmpty
  | a :: t => sub.isPrefixOf (a :: t) || listContainsSub sub t

/-- JS `s.includes(sub)`. -/
def sIncludes (s sub : String) : Bool :=
  listContainsSub sub.data s.data

/-- JS `s.startsWith(pre)`. -/
def sStarts (s pre : String) : Bool :=
  pre.data.isPrefixOf s.data

/-- Whitespace recognised by JS `trim` (restricted to the ASCII whitespace that
can occur in a tmux capture). -/
def isWsChar (c : Char) : Bool :=
  c = ' ' || c = '\t' || c = '\r' || c = '\n'

/-- JS `s.trim()`. -/
def jsTrim (s : String) : String :=
  String.mk (((s.data.dropWhile isWsChar).reverse.dropWhile isWsChar).reverse)

/-- Split a character list at every occurrence of `sep` (JS `split`). -/
def splitOnChar (sep : Char) : List Char → List (List Char)
  | [] => [[]]
  | c :: rest =>
    let r := splitOnChar sep rest
    if c = sep then [] :: r
    else
      match r with
      | h :: t => (c :: h) :: t
      | [] => [[c]]

/-- JS `content.split('\n')`. -/
def splitLines (s : String) : List String :=
  (splitOnChar '\n' s.data).map String.mk

/-- JS `s.toLowerCase()` (ASCII letters, which covers the permission
vocabulary the bot checks). -/
def sToLower (s : String) : String :=
  String.mk (s.data.map Char.toLower)

/-- JS `array.join('\n')`. -/
def joinWithNl : List String → String
  | [] => ""
  | [x] => x
  | x :: xs => x ++ "\n" ++ joinWithNl xs

/-- Index of the last element satisfying `p` (JS backward scans /
`lastIndexOf`). -/
def findLastIdx {α : Type _} (p : α → Bool) : List α → Option Nat
  | [] => none
  | a :: rest =>
    match findLastIdx p rest with
    | some i => some (i + 1)
    | none => if p a then some 0 else none

/-- Index of the first element satisfying `p`. -/
def findFirstIdx {α : Type _} (p : α → Bool) : List α → Option Nat
  | [] => none
  | a :: rest =>
    if p a then some 0
    else
      match findFirstIdx p rest with
      | some i => some (i + 1)
      | none => none

/-- `\w` of the JS regexes: `[A-Za-z0-9_]`. -/
def isWordChar (c : Char) : Bool :=
  c.isAlphanum || c = '_'

/-!
## Snapshot classifier (bot.js lines 173-197)
-/

/-- The full-line tool-invocation regex of `isThinking`
(bot.js line 183): `^[⏺●]\s+\w+\([^)]*\)$`. -/
def toolCallFull (cs : List Char) : Bool :=
  match cs with
  | [] => false
  | c :: rest =>
    if c = '⏺' || c = '●' then
      let ws := rest.takeWhile isWsChar
      let r1 := rest.dropWhile isWsChar
      let w := r1.takeWhile isWordChar
      let r2 := r1.dropWhile isWordChar
      if ws.isEmpty || w.isEmpty then false
      else
        match r2 with
        | '(' :: r3 =>
          match r3.dropWhile (· ≠ ')') with
          | ')' :: r4 => r4.isEmpty
          | _ => false
        | _ => false
    else false

/-- The prefix tool-invocation regex of `parseResponse` (bot.js line 257),
returning the captured tool name and argument text:
`^[⏺●]\s+(\w+)\(([^)]*)\)`. -/
def toolCallPrefix (cs : List Char) : Option (String × String) :=
  match cs with
  | [] => none
  | c :: rest =>
    if c = '⏺' || c = '●' then
      let ws := rest.takeWhile isWsChar
      let r1 := rest.dropWhile isWsChar
      let w := r1.takeWhile isWordChar
      let r2 := r1.dropWhile isWordChar
      if ws.isEmpty || w.isEmpty then none
      else
        match r2 with
        | '(' :: r3 =>
          match r3.dropWhile (· ≠ ')') with
          | ')' :: _ => some (String.mk w, String.mk (r3.takeWhile (· ≠ ')')))
          | _ => none
        | _ => none
    else none

/-- One line of the `isThinking` scan (bot.js lines 175-184); `lines` is the
trailing 30-line window the tool-call rule re-inspects. -/
def thinkingLine (lines : List String) (line : String) : Bool :=
  let t := jsTrim line
  sStarts t "✽" || sStarts t "·" ||
  sIncludes t "Thinking" || sIncludes t "Sussing" || sIncludes t "Leavening" ||
  sIncludes t "Running…" || sIncludes t "Running..." ||
  sIncludes t "(thinking)" ||
  (toolCallFull t.data && !(lines.any (fun l => sStarts (jsTrim l) "⎿")))

/-- bot.js `isThinking` (lines 173-186): scans the trailing 30 lines of the
capture for busy indicators. -/
def isThinking (content : String) : Bool :=
  let lines := lastN 30 (splitLines content)
  lines.any (thinkingLine lines)

/-- bot.js `hasPermissionPrompt` (lines 188-197). -/
def hasPermissionPrompt (content : String) : Bool :=
  let lower := sToLower content
  sIncludes lower "allow this" ||
  sIncludes lower "do you want to" ||
  sIncludes lower "(y/n)" ||
  sIncludes lower "[y/n]" ||
  sIncludes lower "approve" ||
  sIncludes lower "allow once" ||
  sIncludes lower "allow always"

/-- `hasPermissionPrompt` of the first rewrite (src/unnamed/part_001 lines
160-167): two fewer vocabulary entries. -/
def hasPermissionPromptV1 (content : String) : Bool :=
  let lower := sToLower content
  sIncludes lower "allow this" ||
  sIncludes lower "do you want to" ||
  sIncludes lower "(y/n)" ||
  sIncludes lower "[y/n]" ||
  sIncludes lower "approve"

/-!
## Response extractor: bot.js `parseResponse` (lines 199-300)
-/

/-- An empty input-prompt line, both `>` and `❯` variants
(bot.js lines 120, 211, 233). -/
def isPromptMarkerOnly (t : String) : Bool :=
  t = ">" || t = "> " || t = "❯" || t = "❯ "

/-- The backward scan for a trailing empty prompt (bot.js lines 205-213),
run on the reversed trailing 15-line window: decorative lines (separator
rules, blanks, status-bar-like lines with a pipe plus a percent or dollar
token) are skipped; an empty prompt succeeds; any other non-empty line
stops the scan. -/
def emptyPromptScan : List String → Bool
  | [] => false
  | l :: rest =>
    let t := jsTrim l
    if sStarts t "─" || t = "" then emptyPromptScan rest
    else if sIncludes t "|" && (sIncludes t "%" || sIncludes t "$") then emptyPromptScan rest
    else if isPromptMarkerOnly t then true
    else false

/-- bot.js lines 204-213: is there an empty prompt within the trailing 15
lines (skipping decorative lines)? -/
def hasEmptyPromptIn (lines : List String) : Bool :=
  emptyPromptScan (lastN 15 lines).reverse

/-- A user-input echo line (bot.js line 221): prompt marker plus content,
excluding separator echoes. -/
def isUserEcho (line : String) : Bool :=
  let t := jsTrim line
  (sStarts t "> " || sStarts t "❯ ") && t.data.length > 2 &&
  !(sStarts t "> ─") && !(sStarts t "❯ ─")

/-- bot.js lines 230-234: the end of the response region.  The loop walks
`i` from `lines.length - 1` down to `userPromptIndex + 1` and breaks on the
first empty-prompt line it meets, i.e. the LAST empty-prompt line of the
snapshot; defaults to `lines.length`. -/
def findRespEnd (lines : List String) (u : Nat) : Nat :=
  match findLastIdx (fun l => isPromptMarkerOnly (jsTrim l)) (lines.drop (u + 1)) with
  | some j => u + 1 + j
  | none => lines.length

/-- Modelled from the spec (for claim C4 only): the spec says the region ends
at the FIRST empty-prompt line after the user echo; this variant implements
those words for comparison with `findRespEnd` above. -/
def findRespEndSpecC4 (lines : List String) (u : Nat) : Nat :=
  match findFirstIdx (fun l => isPromptMarkerOnly (jsTrim l)) (lines.drop (u + 1)) with
  | some j => u + 1 + j
  | none => lines.length

/-- `t.replace(/^[⏺●]\s*/, '')` (bot.js line 270). -/
def stripActionMarker (t : String) : String :=
  match t.data with
  | c :: rest =>
    if c = '⏺' || c = '●' then String.mk (rest.dropWhile isWsChar) else t
  | [] => t

/-- `t.replace(/^⎿\s*/, '')` (bot.js line 274). -/
def stripResultMarker (t : String) : String :=
  match t.data with
  | c :: rest =>
    if c = '⎿' then String.mk (rest.dropWhile isWsChar) else t
  | [] => t

/-- The semantic label for a tool invocation (bot.js lines 260-266). -/
def toolLabel (tool args : String) : String :=
  if tool = "Read" then "📖 Reading `" ++ args ++ "`"
  else if tool = "Edit" then
    "✏️ Editing `" ++
      (match splitOnChar ',' args.data with
       | h :: _ => String.mk h
       | [] => "") ++ "`"
  else if tool = "Write" then "📝 Writing `" ++ args ++ "`"
  else if tool = "Bash" then "💻 Running command..."
  else if tool = "Glob" || tool = "Grep" then "🔍 Searching..."
  else if tool = "Skill" then "🎯 Loading skill..."
  else "🔧 " ++ tool ++ "..."

/-- One iteration of the cleaning loop of `parseResponse`
(bot.js lines 241-288).  State: the cleaned lines accumulated so far and the
one-slot current tool section. -/
def cleanStep (acc : List String × Option String) (line : String) :
    List String × Option String :=
  let cleaned := acc.1
  let currentSection := acc.2
  let t := jsTrim line
  if t = "" ∨ sStarts t "─" = true then acc
  else if sIncludes t "|" = true ∧ (sIncludes t "%" = true ∨ sIncludes t "$" = true) then acc
  else if sStarts t "○" = true ∨ sStarts t "✽" = true then acc
  else if sStarts t "·" = true ∧ sIncludes t "…" = true then acc
  else if sIncludes t "Claude Code v" = true ∨ sIncludes t "Opus 4" = true then acc
  else if sIncludes t "Share Claude Code" = true then acc
  else if sIncludes t "Auto-update failed" = true then acc
  else if sStarts t "⏺" = true ∨ sStarts t "●" = true then
    match toolCallPrefix t.data with
    | some (tool, args) => (cleaned ++ [toolLabel tool args], some tool)
    | none =>
      let text := stripActionMarker t
      if text = "" then (cleaned, currentSection)
      else (cleaned ++ [text], currentSection)
  else if sStarts t "⎿" = true then
    let text := stripResultMarker t
    if currentSection = some "Bash" ∧ ¬text = "" then
      if text.data.length < 200 then (cleaned ++ ["```", text, "```"], none)
      else (cleaned ++ ["_(" ++ Nat.repr text.data.length ++ " chars)_"], none)
    else if ¬text = "" ∧ text.data.length < 100 then
      (cleaned ++ ["  ↳ " ++ text], none)
    else (cleaned, none)
  else acc

/-- The pure formatting part of bot.js `parseResponse` (lines 199-293):
everything up to but excluding the per-session dedup check.  Returns `none`
when the snapshot is busy, has no trailing empty prompt, or has no user echo;
otherwise the cleaned, joined, trimmed response string (possibly empty). -/
def formatResponse (content : String) : Option String :=
  if isThinking content then none
  else
    let lines := splitLines content
    if !hasEmptyPromptIn lines then none
    else
      match findLastIdx isUserEcho lines with
      | none => none
      | some u =>
        let e := findRespEnd lines u
        let region := (lines.drop (u + 1)).take (e - (u + 1))
        let cleaned := (region.foldl cleanStep ([], none)).1
        let cleaned2 := ((cleaned.dropWhile (· = "")).reverse.dropWhile (· = "")).reverse
        some (jsTrim (joinWithNl cleaned2))

/-- Modelled from the spec (for claim C4 only): `formatResponse` with the
spec's "first empty prompt after the echo" region end. -/
def formatResponseSpecC4 (content : String) : Option String :=
  if isThinking content then none
  else
    let lines := splitLines content
    if !hasEmptyPromptIn lines then none
    else
      match findLastIdx isUserEcho lines with
      | none => none
      | some u =>
        let e := findRespEndSpecC4 lines u
        let region := (lines.drop (u + 1)).take (e - (u + 1))
        let cleaned := (region.foldl cleanStep ([], none)).1
        let cleaned2 := ((cleaned.dropWhile (· = "")).reverse.dropWhile (· = "")).reverse
        some (jsTrim (joinWithNl cleaned2))

/-- bot.js `parseResponse` (lines 199-300) with the `lastSentResponse` map
entry for the session made an explicit input/output: returns the emitted
response (or `none`) and the updated map entry.  The entry is written only
when a non-null response is returned (bot.js lines 295-299). -/
def parseResponse (content : String) (lastSent : Option String) :
    Option String × Option String :=
  match formatResponse content with
  | none => (none, lastSent)
  | some response =>
    if response = "" ∨ lastSent = some response then (none, lastSent)
    else (some response, some response)

/-!
## Readiness wait and spawn: bot.js `waitReady` (lines 110-140) and
`spawnSession` (lines 93-108)

The 60-second polling loop is modelled over the finite list of capture
snapshots observed before the timeout (one entry per 500ms poll); exhausting
the list is the timeout, which makes `waitReady` return `false`.
-/

/-- bot.js lines 116-117: the trailing non-empty line of a capture, trimmed
(`''` when there is none). -/
def lastNonEmptyTrimmed (out : String) : String :=
  match ((splitLines out).filter (fun l => !(jsTrim l = ""))).getLast? with
  | some l => jsTrim l
  | none => ""

/-- bot.js line 120: the observation's trailing non-empty line is an empty
prompt marker. -/
def isEmptyPromptLast (out : String) : Bool :=
  isPromptMarkerOnly (lastNonEmptyTrimmed out)

/-- bot.js line 128: first-run trust prompt. -/
def hasTrustPrompt (out : String) : Bool :=
  sIncludes out "Yes, I trust" || sIncludes out "trust this folder"

/-- bot.js line 132: first-run effort configuration prompt. -/
def hasConfigPrompt (out : String) : Bool :=
  sIncludes out "Use high effort" || sIncludes out "effort level"

/-- Either first-run prompt; each sends the `'1'` default-accept keystroke and
resets the debounce counter (bot.js lines 128-135). -/
def resetPrompt (out : String) : Bool :=
  hasTrustPrompt out || hasConfigPrompt out

/-- One iteration of the `waitReady` loop body (bot.js lines 114-136):
`none` means the loop returned ready, `some s` the counter it continues
with.  The readiness check (increment, compare with 3) precedes the
first-run-prompt resets, exactly as in the source. -/
def waitStep (stable : Nat) (out : String) : Option Nat :=
  if isEmptyPromptLast out then
    if stable + 1 ≥ 3 then none
    else some (if resetPrompt out then 0 else stable + 1)
  else some (if resetPrompt out then 0 else 0)

/-- The `waitReady` loop over the observations made before the timeout. -/
def waitReadyLoop : Nat → List String → Bool
  | _, [] => false
  | stable, out :: rest =>
    match waitStep stable out with
    | none => true
    | some s => waitReadyLoop s rest

/-- bot.js `waitReady` (lines 110-140): debounce counter starts at 0; the
observation list is what `capture` returned on the polls that fit in the
timeout. -/
def waitReady (outs : List String) : Bool :=
  waitReadyLoop 0 outs

/-- bot.js `spawnSession` (lines 93-108): `tmuxOk` is whether the two
`execSync` tmux calls succeeded (the `try` covers them).  The source awaits
`waitReady` but discards its Boolean result and returns `true` whenever the
tmux calls did not throw. -/
def spawnSession (tmuxOk : Bool) (outs : List String) : Bool :=
  if tmuxOk then
    let _ready := waitReady outs
    true
  else false

/-- The caller's decision in the `app_mention` handler (bot.js lines 444-457):
the session record is created exactly when `spawnSession` returned `true`. -/
def mentionCreatesSession (spawnOk : Bool) : Bool :=
  spawnOk

/-!
## Chunking: bot.js `chunkText` (lines 345-359)

Strings are character lists here; the loop is given explicit fuel (`none`
means the fuel was exhausted before the loop emptied `remaining`, i.e. the
JS loop would still be running after that many iterations).
-/

/-- JS `remaining.lastIndexOf('\n', max)` (bot.js line 352): the largest
index `≤ max` holding a newline, as an `Option`. -/
def lastNlIdx (l : List Char) (fromIdx : Nat) : Option Nat :=
  findLastIdx (fun c => c = '\n') (l.take (fromIdx + 1))

/-- The split position chosen by one iteration of the `chunkText` loop
(bot.js lines 350-354): `end = min(len, max)`, moved back to the last
newline at or before `max` when that newline index exceeds `max * 0.5`
(`nl > max * 0.5` on integers is `2 * nl > max`). -/
def chunkStepEnd (remaining : List Char) (max : Nat) : Nat :=
  if remaining.length > max then
    match lastNlIdx remaining max with
    | some nl => if 2 * nl > max then nl else min remaining.length max
    | none => min remaining.length max
  else min remaining.length max

/-- The `while (remaining.length > 0)` loop of `chunkText`
(bot.js lines 349-357), with fuel. -/
def chunkTextAux : Nat → List Char → Nat → Option (List (List Char))
  | 0, remaining, _ => if remaining.length = 0 then some [] else none
  | fuel + 1, remaining, max =>
    if remaining.length = 0 then some []
    else
      match chunkTextAux fuel (remaining.drop (chunkStepEnd remaining max)) max with
      | some rest => some (remaining.take (chunkStepEnd remaining max) :: rest)
      | none => none

/-- bot.js `chunkText` (lines 345-359).  Fuel `text.length` suffices whenever
`max ≥ 1` (claim C9); `none` marks the diverging `max = 0` case. -/
def chunkText (text : List Char) (max : Nat) : Option (List (List Char)) :=
  if text.length ≤ max then some [text]
  else chunkTextAux text.length text max

/-!
## Poll loop reactions (bot.js `pollOutputs`, lines 302-336; first rewrite
src/unnamed/part_001 lines 276-319; second rewrite lines 877-910) and the
session records each rewrite stores.
-/

/-- The session record of bot.js (lines 451-456). -/
structure SessionV6 where
  sessionName : String
  channelId : String
  autoAccept : Bool
  dangerous : Bool

/-- The session record of the first rewrite (part_001 line 429): no
`dangerous` field is stored. -/
structure SessionV1 where
  sessionName : String
  channelId : String
  autoAccept : Bool

/-- The first rewrite's flag derivation (part_001 lines 410-411):
`autoAccept = dangerous || text.includes('--auto')`. -/
def v1FlagsAutoAccept (dangerous auto : Bool) : Bool :=
  dangerous || auto

/-- What one `pollOutputs` iteration does for one session. -/
inductive PollAction where
  | cleanupDead
  | autoAcceptKey
  | emitResponse (r : String)
  | wait
deriving DecidableEq

/-- One iteration of bot.js `pollOutputs` (lines 302-336) for one session:
dead tmux session → cleanup; no pending request → skip; auto-accept branch
guarded by `session.autoAccept && !session.dangerous &&
hasPermissionPrompt(current)` (line 315); otherwise parse and emit. -/
def pollReactV6 (alive : Bool) (s : SessionV6) (pendingPresent : Bool)
    (current : String) (lastSent : Option String) : PollAction :=
  if !alive then .cleanupDead
  else if !pendingPresent then .wait
  else if s.autoAccept && !s.dangerous && hasPermissionPrompt current then .autoAcceptKey
  else
    match (parseResponse current lastSent).1 with
    | some r => .emitResponse r
    | none => .wait

/-- One iteration of the second rewrite's `pollOutputs`
(part_001 lines 877-910): identical guard
`session.autoAccept && !session.dangerous && hasPermissionPrompt(current)`
(line 889). -/
def pollReactV7 (alive : Bool) (s : SessionV6) (pendingPresent : Bool)
    (current : String) (lastSent : Option String) : PollAction :=
  if !alive then .cleanupDead
  else if !pendingPresent then .wait
  else if s.autoAccept && !s.dangerous && hasPermissionPrompt current then .autoAcceptKey
  else
    match (parseResponse current lastSent).1 with
    | some r => .emitResponse r
    | none => .wait

/-- One iteration of the first rewrite's `pollOutputs`
(part_001 lines 276-319): the auto-accept guard is only
`session.autoAccept && hasPermissionPrompt(current)` (line 288) — there is
no `dangerous` check. -/
def pollReactV1 (alive : Bool) (s : SessionV1) (pendingPresent : Bool)
    (current : String) (lastSent : Option String) : PollAction :=
  if !alive then .cleanupDead
  else if !pendingPresent then .wait
  else if s.autoAccept && hasPermissionPromptV1 current then .autoAcceptKey
  else
    match (parseResponse current lastSent).1 with
    | some r => .emitResponse r
    | none => .wait

/-!
## Session registry cleanup (bot.js `cleanup`, lines 338-343; second rewrite
part_001 lines 912-919)

The module-level `Map`s are modelled as functions to `Option`; `Map.delete`
sets the key to `none`.
-/

/-- The pending-response record (bot.js line 463). -/
structure Pending where
  channelId : String
  threadTs : String
  triggerTs : String

/-- JS `map.delete(k)`. -/
def mapDelete {α : Type _} (m : String → Option α) (k : String) :
    String → Option α :=
  fun x => if x = k then none else m x

/-- The four module-level maps of bot.js (lines 28-31): `sessions` is keyed
by thread timestamp, the other three by tmux session name. -/
structure RegistryV6 where
  sessions : String → Option SessionV6
  lastSeenContent : String → Option String
  lastSentResponse : String → Option String
  pendingResponses : String → Option Pending

/-- bot.js `cleanup` (lines 338-343): deletes the session's entry from every
map in one synchronous call (no suspension point between the deletes). -/
def cleanupV6 (r : RegistryV6) (sessionName threadTs : String) : RegistryV6 :=
  { sessions := mapDelete r.sessions threadTs
    lastSeenContent := mapDelete r.lastSeenContent sessionName
    lastSentResponse := mapDelete r.lastSentResponse sessionName
    pendingResponses := mapDelete r.pendingResponses sessionName }

/-- The five module-level maps of the second rewrite (part_001 lines 545-549),
which adds `sessionActivity`. -/
structure RegistryV7 where
  sessions : String → Option SessionV6
  lastSeenContent : String → Option String
  lastSentResponse : String → Option String
  pendingResponses : String → Option Pending
  sessionActivity : String → Option Nat

/-- The second rewrite's `cleanup` (part_001 lines 912-919). -/
def cleanupV7 (r : RegistryV7) (sessionName threadTs : String) : RegistryV7 :=
  { sessions := mapDelete r.sessions threadTs
    lastSeenContent := mapDelete r.lastSeenContent sessionName
    lastSentResponse := mapDelete r.lastSentResponse sessionName
    pendingResponses := mapDelete r.pendingResponses sessionName
    sessionActivity := mapDelete r.sessionActivity sessionName }

/-!
## Helper lemmas
-/

theorem findLastIdx_none_of_all {α : Type _} (p : α → Bool) :
    ∀ (l : List α), (∀ i (h : i < l.length), p (l.get ⟨i, h⟩) = false) →
    findLastIdx p l = none := by
  intro l
  induction l with
  | nil => intro _; rfl
  | cons a rest ih =>
    intro hall
    have hrest : findLastIdx p rest = none := by
      apply ih
      intro i h
      exact hall (i + 1) (by simpa using Nat.succ_lt_succ h)
    have ha : p a = false := hall 0 (Nat.succ_pos _)
    simp [findLastIdx, hrest, ha]

theorem findLastIdx_eq_some {α : Type _} (p : α → Bool) :
    ∀ (l : List α) (j : Nat) (hj : j < l.length),
    p (l.get ⟨j, hj⟩) = true →
    (∀ k (hk : k < l.length), j < k → p (l.get ⟨k, hk⟩) = false) →
    findLastIdx p l = some j := by
  intro l
  induction l with
  | nil => intro j hj; exact absurd hj (Nat.not_lt_zero j)
  | cons a rest ih =>
    intro j hj hp hmax
    match j with
    | 0 =>
      have hrest : findLastIdx p rest = none := by
        apply findLastIdx_none_of_all
        intro i h
        exact hmax (i + 1) (by simpa using Nat.succ_lt_succ h) (Nat.succ_pos i)
      simp only [List.get] at hp
      simp [findLastIdx, hrest, hp]
    | j' + 1 =>
      have hj' : j' < rest.length := Nat.lt_of_succ_lt_succ hj
      have hrest : findLastIdx p rest = some j' := by
        apply ih j' hj'
        · simpa [List.get] using hp
        · intro k hk hlt
          exact hmax (k + 1) (by simpa using Nat.succ_lt_succ hk)
            (Nat.succ_lt_succ hlt)
      simp [findLastIdx, hrest]

theorem findLastIdx_lt_length {α : Type _} (p : α → Bool) :
    ∀ (l : List α) (i : Nat), findLastIdx p l = some i → i < l.length := by
  intro l
  induction l with
  | nil => intro i h; exact absurd h (by simp [findLastIdx])
  | cons a rest ih =>
    intro i h
    unfold findLastIdx at h
    cases hr : findLastIdx p rest with
    | some m =>
      rw [hr] at h
      simp only [Option.some.injEq] at h
      subst h
      exact Nat.succ_lt_succ (ih m hr)
    | none =>
      rw [hr] at h
      cases hpa : p a with
      | true =>
        simp only [hpa, if_true, Option.some.injEq] at h
        subst h
        exact Nat.succ_pos _
      | false => simp [hpa] at h

theorem chunkStepEnd_le (remaining : List Char) (max : Nat) :
    chunkStepEnd remaining max ≤ max := by
  unfold chunkStepEnd
  by_cases h : remaining.length > max
  · rw [if_pos h]
    cases hnl : lastNlIdx remaining max with
    | none => simp only [hnl]; exact Nat.min_le_right _ _
    | some nl =>
      simp only [hnl]
      by_cases h2 : 2 * nl > max
      · rw [if_pos h2]
        unfold lastNlIdx at hnl
        have hlt := findLastIdx_lt_length _ _ _ hnl
        have hle : (remaining.take (max + 1)).length ≤ max + 1 := by
          simp [List.length_take]
        omega
      · rw [if_neg h2]
        exact Nat.min_le_right _ _
  · rw [if_neg h]
    exact Nat.min_le_right _ _

theorem chunkStepEnd_pos (remaining : List Char) (max : Nat)
    (hne : remaining ≠ []) (hmax : 1 ≤ max) :
    1 ≤ chunkStepEnd remaining max := by
  have hlen : 1 ≤ remaining.length := List.length_pos.mpr hne
  have hmin : 1 ≤ min remaining.length max := le_min hlen hmax
  unfold chunkStepEnd
  by_cases h : remaining.length > max
  · rw [if_pos h]
    cases hnl : lastNlIdx remaining max with
    | none => simpa only [hnl] using hmin
    | some nl =>
      simp only [hnl]
      by_cases h2 : 2 * nl > max
      · rw [if_pos h2]; omega
      · rw [if_neg h2]; exact hmin
  · rw [if_neg h]
    exact hmin

theorem chunkTextAux_isSome (max : Nat) (hmax : 1 ≤ max) :
    ∀ (fuel : Nat) (remaining : List Char), remaining.length ≤ fuel →
    (chunkTextAux fuel remaining max).isSome := by
  intro fuel
  induction fuel with
  | zero =>
    intro remaining hle
    have h0 : remaining.length = 0 := Nat.le_zero.mp hle
    simp [chunkTextAux, h0]
  | succ n ih =>
    intro remaining hle
    unfold chunkTextAux
    by_cases hemp : remaining.length = 0
    · simp [hemp]
    · rw [if_neg hemp]
      have hne : remaining ≠ [] := by
        intro h; subst h; exact hemp rfl
      have hpos := chunkStepEnd_pos remaining max hne hmax
      have hdrop : (remaining.drop (chunkStepEnd remaining max)).length ≤ n := by
        simp only [List.length_drop]
        omega
      have hrecsome := ih (remaining.drop (chunkStepEnd remaining max)) hdrop
      cases hrec : chunkTextAux n (remaining.drop (chunkStepEnd remaining max)) max with
      | none => rw [hrec] at hrecsome; exact absurd hrecsome (by simp)
      | some rest => simp [hrec]

theorem chunkTextAux_flatten :
    ∀ (fuel : Nat) (remaining : List Char) (max : Nat)
      (chunks : List (List Char)),
    chunkTextAux fuel remaining max = some chunks → chunks.flatten = remaining := by
  intro fuel
  induction fuel with
  | zero =>
    intro remaining max chunks h
    unfold chunkTextAux at h
    by_cases hemp : remaining.length = 0
    · rw [if_pos hemp] at h
      simp only [Option.some.injEq] at h
      subst h
      simp [List.eq_nil_of_length_eq_zero hemp]
    · rw [if_neg hemp] at h
      exact absurd h (by simp)
  | succ n ih =>
    intro remaining max chunks h
    unfold chunkTextAux at h
    by_cases hemp : remaining.length = 0
    · rw [if_pos hemp] at h
      simp only [Option.some.injEq] at h
      subst h
      simp [List.eq_nil_of_length_eq_zero hemp]
    · rw [if_neg hemp] at h
      cases hrec : chunkTextAux n (remaining.drop (chunkStepEnd remaining max)) max with
      | none => simp only [hrec] at h; exact absurd h (by simp)
      | some rest =>
        simp only [hrec, Option.some.injEq] at h
        subst h
        have hjoin := ih (remaining.drop (chunkStepEnd remaining max)) max rest hrec
        simp [hjoin]

theorem chunkTextAux_lengths :
    ∀ (fuel : Nat) (remaining : List Char) (max : Nat)
      (chunks : List (List Char)),
    chunkTextAux fuel remaining max = some chunks →
    ∀ c ∈ chunks, c.length ≤ max := by
  intro fuel
  induction fuel with
  | zero =>
    intro remaining max chunks h
    unfold chunkTextAux at h
    by_cases hemp : remaining.length = 0
    · rw [if_pos hemp] at h
      simp only [Option.some.injEq] at h
      subst h
      intro c hc
      exact absurd hc (List.not_mem_nil c)
    · rw [if_neg hemp] at h
      exact absurd h (by simp)
  | succ n ih =>
    intro remaining max chunks h
    unfold chunkTextAux at h
    by_cases hemp : remaining.length = 0
    · rw [if_pos hemp] at h
      simp only [Option.some.injEq] at h
      subst h
      intro c hc
      exact absurd hc (List.not_mem_nil c)
    · rw [if_neg hemp] at h
      cases hrec : chunkTextAux n (remaining.drop (chunkStepEnd remaining max)) max with
      | none => simp only [hrec] at h; exact absurd h (by simp)
      | some rest =>
        simp only [hrec, Option.some.injEq] at h
        subst h
        intro c hc
        rcases List.mem_cons.mp hc with hhead | htail
        · subst hhead
          calc (remaining.take (chunkStepEnd remaining max)).length
              ≤ chunkStepEnd remaining max := by
                simp [List.length_take]
            _ ≤ max := chunkStepEnd_le remaining max
        · exact ih _ max rest hrec c htail

theorem chunkTextAux_zero_of_ne_nil :
    ∀ (fuel : Nat) (text : List Char), text ≠ [] →
    chunkTextAux fuel text 0 = none := by
  intro fuel
  induction fuel with
  | zero =>
    intro text hne
    unfold chunkTextAux
    rw [if_neg (by have := List.length_pos.mpr hne; omega)]
  | succ n ih =>
    intro text hne
    unfold chunkTextAux
    rw [if_neg (by have := List.length_pos.mpr hne; omega)]
    have hstep : chunkStepEnd text 0 = 0 := by
      have hle := chunkStepEnd_le text 0
      omega
    rw [hstep]
    simp only [List.drop_zero]
    rw [ih text hne]

theorem chunkTextAux_head (fuel : Nat) (text : List Char) (max : Nat)
    (chunks : List (List Char)) (hne : ¬text.length = 0)
    (h : chunkTextAux (fuel + 1) text max = some chunks) :
    chunks.head? = some (text.take (chunkStepEnd text max)) := by
  unfold chunkTextAux at h
  rw [if_neg hne] at h
  cases hrec : chunkTextAux fuel (text.drop (chunkStepEnd text max)) max with
  | none => simp only [hrec] at h; exact absurd h (by simp)
  | some rest =>
    simp only [hrec, Option.some.injEq] at h
    subst h
    rfl

theorem parseResponse_none_eq (content : String) (lastSent : Option String)
    (h : formatResponse content = none) :
    parseResponse content lastSent = (none, lastSent) := by
  unfold parseResponse
  rw [h]

theorem parseResponse_dedup_eq (content : String) (lastSent : Option String)
    (r : String) (h : formatResponse content = some r)
    (hc : r = "" ∨ lastSent = some r) :
    parseResponse content lastSent = (none, lastSent) := by
  unfold parseResponse
  rw [h]
  show (if r = "" ∨ lastSent = some r then ((none : Option String), lastSent)
        else (some r, some r)) = (none, lastSent)
  rw [if_pos hc]

theorem parseResponse_fresh_eq (content : String) (lastSent : Option String)
    (r : String) (h : formatResponse content = some r)
    (hc : ¬(r = "" ∨ lastSent = some r)) :
    parseResponse content lastSent = (some r, some r) := by
  unfold parseResponse
  rw [h]
  show (if r = "" ∨ lastSent = some r then ((none : Option String), lastSent)
        else (some r, some r)) = (some r, some r)
  rw [if_neg hc]

/-!
## Claims
-/

/-- C1: calling the extractor twice in succession on the same snapshot (with
the session's `lastSentResponse` entry threaded through) yields `None` the
second time; and the extractor returns `None` whenever the cleaned, joined
result string is empty or equals the last value returned for the session. -/
theorem extractor_idempotent_dedup_C1 :
    (∀ (content : String) (lastSent : Option String),
      (parseResponse content (parseResponse content lastSent).2).1 = none) ∧
    (∀ (content : String) (lastSent : Option String) (r : String),
      formatResponse content = some r → (r = "" ∨ lastSent = some r) →
      (parseResponse content lastSent).1 = none) := by
  constructor
  · intro content lastSent
    cases h : formatResponse content with
    | none =>
      have h1 := parseResponse_none_eq content lastSent h
      rw [h1]
      show (parseResponse content lastSent).1 = none
      rw [h1]
    | some r =>
      by_cases hc : r = "" ∨ lastSent = some r
      · have h1 := parseResponse_dedup_eq content lastSent r h hc
        rw [h1]
        show (parseResponse content lastSent).1 = none
        rw [h1]
      · have h1 := parseResponse_fresh_eq content lastSent r h hc
        rw [h1]
        show (parseResponse content (some r)).1 = none
        rw [parseResponse_dedup_eq content (some r) r h (Or.inr rfl)]
  · intro content lastSent r h hc
    rw [parseResponse_dedup_eq content lastSent r h hc]

theorem extractor_idempotent_dedup_C1_witness :
    (parseResponse "> hi\n⏺ Hello\n>" (parseResponse "> hi\n⏺ Hello\n>" none).2).1 = none ∧
    (parseResponse "> hi\n⏺ Hello\n>" (some "Hello")).1 = none :=
  ⟨extractor_idempotent_dedup_C1.1 "> hi\n⏺ Hello\n>" none,
   extractor_idempotent_dedup_C1.2 "> hi\n⏺ Hello\n>" (some "Hello") "Hello"
     rfl (Or.inr rfl)⟩

/-- C3 (code bug): on captures that never show an empty prompt the readiness
wait times out and `waitReady` returns `false`, but `spawnSession` discards
that Boolean and still returns `true` (bot.js line 101 awaits `waitReady`
without checking it, then line 103 returns `true`), so the mention handler
goes on to create the session record instead of surfacing a failure. -/
theorem spawn_ignores_timeout_C3 :
    waitReady ["Loading..."] = false ∧
    spawnSession true ["Loading..."] = true ∧
    mentionCreatesSession (spawnSession true ["Loading..."]) = true :=
  ⟨rfl, rfl, rfl⟩

/-- C5 is refuted at chunk size 0: on the nonempty input "a" the
`while (remaining.length > 0)` loop makes no progress (`end` stays 0), so
`chunkText` never returns — here, fuel `"a".length` is exhausted with the
input unconsumed, and indeed no larger fuel (e.g. 1000000) completes it —
so no chunk list exists whose concatenation reproduces the input, contrary
to the claim's "for every chunk size N". -/
theorem chunk_zero_budget_C5_counterexample :
    chunkText "a".data 0 = none ∧
    chunkTextAux 1000000 "a".data 0 = none :=
  ⟨by decide, chunkTextAux_zero_of_ne_nil 1000000 "a".data (by decide)⟩

/-- C5 amended: for every chunk budget `max` of at least 1 (the budget 0
case diverges, see the counterexample and C9), the chunks of `chunkText`
concatenate back to the input with no separator, every chunk has at most
`max` characters, and when a split is needed the first chunk ends at the
last newline at or before position `max` provided that newline lies past
`max / 2`, otherwise at position `max`. -/
theorem chunk_roundtrip_C5 (text : List Char) (max : Nat) (hmax : 1 ≤ max) :
    ∃ chunks, chunkText text max = some chunks ∧
      chunks.flatten = text ∧
      (∀ c ∈ chunks, c.length ≤ max) ∧
      (max < text.length →
        ((∃ nl, lastNlIdx text max = some nl ∧ 2 * nl > max ∧
            chunks.head? = some (text.take nl)) ∨
         (chunks.head? = some (text.take max) ∧
            ∀ nl, lastNlIdx text max = some nl → 2 * nl ≤ max))) := by
  by_cases h : text.length ≤ max
  · refine ⟨[text], ?_, by simp, ?_, ?_⟩
    · unfold chunkText
      rw [if_pos h]
    · intro c hc
      rcases List.mem_cons.mp hc with hh | ht
      · subst hh; exact h
      · exact absurd ht (List.not_mem_nil c)
    · intro hlt
      omega
  · have hlen : max < text.length := Nat.lt_of_not_le h
    have hsome := chunkTextAux_isSome max hmax text.length text le_rfl
    cases hch : chunkTextAux text.length text max with
    | none => rw [hch] at hsome; exact absurd hsome (by simp)
    | some chunks =>
      have hct : chunkText text max = some chunks := by
        unfold chunkText
        rw [if_neg h]
        exact hch
      refine ⟨chunks, hct, chunkTextAux_flatten _ _ _ _ hch,
        chunkTextAux_lengths _ _ _ _ hch, ?_⟩
      intro _
      have hne : ¬text.length = 0 := by omega
      have hminmax : min text.length max = max := min_eq_right (le_of_lt hlen)
      obtain ⟨f, hf⟩ : ∃ f, text.length = f + 1 := ⟨text.length - 1, by omega⟩
      rw [hf] at hch
      have hhead := chunkTextAux_head f text max chunks hne hch
      unfold chunkStepEnd at hhead
      rw [if_pos hlen] at hhead
      cases hnl : lastNlIdx text max with
      | none =>
        right
        simp only [hnl, hminmax] at hhead
        refine ⟨hhead, ?_⟩
        intro nl hnl'
        exact Option.noConfusion hnl'
      | some nl =>
        simp only [hnl] at hhead
        by_cases h2 : 2 * nl > max
        · left
          rw [if_pos h2] at hhead
          exact ⟨nl, rfl, h2, hhead⟩
        · right
          rw [if_neg h2, hminmax] at hhead
          refine ⟨hhead, ?_⟩
          intro nl' hnl'
          have he := Option.some.inj hnl'
          omega

theorem chunk_roundtrip_C5_witness :
    ∃ chunks, chunkText "abc".data 2 = some chunks ∧
      chunks.flatten = "abc".data ∧
      (∀ c ∈ chunks, c.length ≤ 2) ∧
      (2 < "abc".data.length →
        ((∃ nl, lastNlIdx "abc".data 2 = some nl ∧ 2 * nl > 2 ∧
            chunks.head? = some ("abc".data.take nl)) ∨
         (chunks.head? = some ("abc".data.take 2) ∧
            ∀ nl, lastNlIdx "abc".data 2 = some nl → 2 * nl ≤ 2))) :=
  chunk_roundtrip_C5 "abc".data 2 (by decide)

/-- C9: `chunkText` terminates whenever the budget `max` is at least 1 —
fuel equal to the input length completes the loop, since every iteration
consumes at least one character; for `max = 0` the loop never terminates on
a nonempty input (no amount of fuel completes it). -/
theorem chunk_termination_C9 :
    (∀ (text : List Char) (max : Nat), 1 ≤ max →
      ∃ chunks, chunkText text max = some chunks) ∧
    (∀ (fuel : Nat) (text : List Char), text ≠ [] →
      chunkTextAux fuel text 0 = none) := by
  constructor
  · intro text max hmax
    unfold chunkText
    by_cases h : text.length ≤ max
    · exact ⟨[text], by rw [if_pos h]⟩
    · rw [if_neg h]
      have hsome := chunkTextAux_isSome max hmax text.length text le_rfl
      exact Option.isSome_iff_exists.mp hsome
  · exact chunkTextAux_zero_of_ne_nil

theorem chunk_termination_C9_witness :
    (∃ chunks, chunkText "ab".data 1 = some chunks) ∧
    chunkTextAux 3 "a".data 0 = none :=
  ⟨chunk_termination_C9.1 "ab".data 1 (by decide),
   chunk_termination_C9.2 3 "a".data (by decide)⟩

/-- C8: session deletion is one pure update that removes the session's entry
from every registry map — the four maps of bot.js `cleanup` and the five of
the second rewrite (including `sessionActivity`); after it runs no map
retains an entry for the session's key. -/
theorem cleanup_atomic_C8 (r6 : RegistryV6) (r7 : RegistryV7)
    (sessionName threadTs : String) :
    (cleanupV6 r6 sessionName threadTs).sessions threadTs = none ∧
    (cleanupV6 r6 sessionName threadTs).lastSeenContent sessionName = none ∧
    (cleanupV6 r6 sessionName threadTs).lastSentResponse sessionName = none ∧
    (cleanupV6 r6 sessionName threadTs).pendingResponses sessionName = none ∧
    (cleanupV7 r7 sessionName threadTs).sessions threadTs = none ∧
    (cleanupV7 r7 sessionName threadTs).lastSeenContent sessionName = none ∧
    (cleanupV7 r7 sessionName threadTs).lastSentResponse sessionName = none ∧
    (cleanupV7 r7 sessionName threadTs).pendingResponses sessionName = none ∧
    (cleanupV7 r7 sessionName threadTs).sessionActivity sessionName = none := by
  refine ⟨?_, ?_, ?_, ?_, ?_, ?_, ?_, ?_, ?_⟩ <;>
    simp [cleanupV6, cleanupV7, mapDelete]

theorem waitStep_eq_none (s : Nat) (out : String) (h : waitStep s out = none) :
    isEmptyPromptLast out = true ∧ 2 ≤ s := by
  unfold waitStep at h
  by_cases hE : isEmptyPromptLast out
  · rw [if_pos hE] at h
    by_cases h3 : s + 1 ≥ 3
    · exact ⟨hE, by omega⟩
    · rw [if_neg h3] at h
      exact absurd h (by simp)
  · rw [if_neg hE] at h
    exact absurd h (by simp)

theorem waitStep_some_pos (s s' : Nat) (out : String)
    (h : waitStep s out = some s') (hpos : 1 ≤ s') :
    isEmptyPromptLast out = true ∧ resetPrompt out = false ∧ s' = s + 1 := by
  unfold waitStep at h
  by_cases hE : isEmptyPromptLast out
  · rw [if_pos hE] at h
    by_cases h3 : s + 1 ≥ 3
    · rw [if_pos h3] at h
      exact absurd h (by simp)
    · rw [if_neg h3] at h
      have hv := Option.some.inj h
      by_cases hR : resetPrompt out
      · rw [if_pos hR] at hv; omega
      · rw [if_neg hR] at hv
        exact ⟨by simpa using hE, by simpa using hR, hv.symm⟩
  · rw [if_neg hE] at h
    have hv := Option.some.inj h
    rw [ite_self] at hv
    omega

theorem waitReadyLoop_ready_decomp :
    ∀ (outs : List String) (s : Nat), waitReadyLoop s outs = true →
      (∃ pre a b c post, outs = pre ++ a :: b :: c :: post ∧
        isEmptyPromptLast a = true ∧ resetPrompt a = false ∧
        isEmptyPromptLast b = true ∧ resetPrompt b = false ∧
        isEmptyPromptLast c = true) ∨
      (∃ a post, outs = a :: post ∧ isEmptyPromptLast a = true ∧ 2 ≤ s) ∨
      (∃ a b post, outs = a :: b :: post ∧ isEmptyPromptLast a = true ∧
        resetPrompt a = false ∧ isEmptyPromptLast b = true ∧ 1 ≤ s) := by
  intro outs
  induction outs with
  | nil =>
    intro s h
    exact absurd h (by simp [waitReadyLoop])
  | cons a rest ih =>
    intro s h
    unfold waitReadyLoop at h
    cases hstep : waitStep s a with
    | none =>
      obtain ⟨hE, hs⟩ := waitStep_eq_none s a hstep
      exact Or.inr (Or.inl ⟨a, rest, rfl, hE, hs⟩)
    | some s' =>
      rw [hstep] at h
      rcases ih s' h with hdec | ⟨b, post, hrest, hEb, hs'⟩ |
          ⟨b, c, post, hrest, hEb, hRb, hEc, hs'⟩
      · obtain ⟨pre, x, y, z, post, hrest, hx⟩ := hdec
        exact Or.inl ⟨a :: pre, x, y, z, post, by simp [hrest], hx⟩
      · obtain ⟨hEa, hRa, hseq⟩ := waitStep_some_pos s s' a hstep (by omega)
        subst hrest
        exact Or.inr (Or.inr ⟨a, b, post, rfl, hEa, hRa, hEb, by omega⟩)
      · obtain ⟨hEa, hRa, hseq⟩ := waitStep_some_pos s s' a hstep (by omega)
        subst hrest
        exact Or.inl ⟨[], a, b, c, post, rfl, hEa, hRa, hEb, hRb, hEc⟩

/-- C6: `waitReady` reports ready only after three consecutive observations
whose trailing non-empty line is an empty-prompt marker (the first two also
free of first-run trust/config prompts, which reset the counter); any
observation whose trailing line is not an empty prompt continues with the
counter at zero, and any non-returning observation showing a trust or config
prompt (which also sends the default-accept keystroke) continues with the
counter at zero — so a single transient empty-prompt frame followed by a
non-empty frame never triggers readiness. -/
theorem waitReady_debounce_C6 :
    (∀ outs : List String, waitReady outs = true →
      ∃ pre a b c post, outs = pre ++ a :: b :: c :: post ∧
        isEmptyPromptLast a = true ∧ resetPrompt a = false ∧
        isEmptyPromptLast b = true ∧ resetPrompt b = false ∧
        isEmptyPromptLast c = true) ∧
    (∀ (s : Nat) (out : String), isEmptyPromptLast out = false →
      waitStep s out = some 0) ∧
    (∀ (s s' : Nat) (out : String), resetPrompt out = true →
      waitStep s out = some s' → s' = 0) := by
  refine ⟨?_, ?_, ?_⟩
  · intro outs h
    rcases waitReadyLoop_ready_decomp outs 0 h with hdec | ⟨_, _, _, _, hs⟩ |
        ⟨_, _, _, _, _, _, _, hs⟩
    · exact hdec
    · omega
    · omega
  · intro s out hE
    unfold waitStep
    rw [if_neg (by simp [hE]), ite_self]
  · intro s s' out hR h
    unfold waitStep at h
    by_cases hE : isEmptyPromptLast out
    · rw [if_pos hE] at h
      by_cases h3 : s + 1 ≥ 3
      · rw [if_pos h3] at h
        exact absurd h (by simp)
      · rw [if_neg h3, if_pos (by simp [hR] : resetPrompt out = true)] at h
        exact (Option.some.inj h).symm
    · rw [if_neg hE] at h
      have hv := Option.some.inj h
      rw [ite_self] at hv
      omega

theorem waitReady_debounce_C6_witness :
    (∃ pre a b c post, ([">", ">", ">"] : List String) = pre ++ a :: b :: c :: post ∧
      isEmptyPromptLast a = true ∧ resetPrompt a = false ∧
      isEmptyPromptLast b = true ∧ resetPrompt b = false ∧
      isEmptyPromptLast c = true) ∧
    waitStep 1 "Loading" = some 0 ∧
    (0 : Nat) = 0 :=
  ⟨waitReady_debounce_C6.1 [">", ">", ">"] (by decide),
   waitReady_debounce_C6.2.1 1 "Loading" (by decide),
   waitReady_debounce_C6.2.2 1 0 "Yes, I trust this folder" (by decide) (by decide)⟩

theorem sStarts_single_char (t pre : String) (c : Char) (hpre : pre.data = [c]) :
    sStarts t pre = true ↔ ∃ rest, t.data = c :: rest := by
  unfold sStarts
  rw [hpre]
  cases ht : t.data with
  | nil =>
    constructor
    · intro hb
      exact absurd hb (by simp [List.isPrefixOf])
    · intro ⟨rest, hr⟩
      exact absurd hr (by simp)
  | cons a r =>
    constructor
    · intro hb
      have hca : c = a := by
        simpa [List.isPrefixOf] using hb
      exact ⟨r, by rw [hca]⟩
    · intro ⟨rest, hr⟩
      have hca : a = c ∧ r = rest := by
        constructor
        · exact (List.cons.inj hr).1
        · exact (List.cons.inj hr).2
      simp [List.isPrefixOf, hca.1]

theorem sStarts_single_ne (t pre1 pre2 : String) (c d : Char)
    (h1 : pre1.data = [c]) (h2 : pre2.data = [d]) (hne : ¬c = d)
    (h : sStarts t pre1 = true) : sStarts t pre2 = false := by
  obtain ⟨rest, hr⟩ := (sStarts_single_char t pre1 c h1).mp h
  cases hb : sStarts t pre2 with
  | false => rfl
  | true =>
    obtain ⟨rest2, hr2⟩ := (sStarts_single_char t pre2 d h2).mp hb
    rw [hr] at hr2
    exact absurd (List.cons.inj hr2).1 hne

/-- The snapshot refuting C2: its only result-marker line precedes the
pending tool invocation. -/
def c2snapshot : String := "> go\n⎿  done\n⏺ Read(a.txt)\n>"

/-- C2 is refuted at `c2snapshot`: the trailing window holds the full
tool-invocation line `⏺ Read(a.txt)` with no result-marker line after it
(the only `⎿` line comes before it), yet `isThinking` is `false` — the code
looks for a result marker anywhere in the 30-line window, not after the
invocation — and `parseResponse` returns content instead of `None`. -/
theorem busy_toolcall_C2_counterexample :
    toolCallFull (jsTrim "⏺ Read(a.txt)").data = true ∧
    splitLines c2snapshot = ["> go", "⎿  done", "⏺ Read(a.txt)", ">"] ∧
    (∀ l ∈ (splitLines c2snapshot).drop 3, sStarts (jsTrim l) "⎿" = false) ∧
    isThinking c2snapshot = false ∧
    (parseResponse c2snapshot none).1 = some "↳ done\n📖 Reading `a.txt`" :=
  ⟨by decide, by decide, by decide, by decide, by decide⟩

/-- C2 amended: the classifier decides Busy — and the extractor therefore
returns `None` — whenever the trailing 30-line window contains a full-line
tool invocation and no result-marker line anywhere in that window (the code
checks the whole window, not just the lines after the invocation). -/
theorem busy_toolcall_window_C2 (content : String) (line : String)
    (lastSent : Option String)
    (hmem : line ∈ lastN 30 (splitLines content))
    (htool : toolCallFull (jsTrim line).data = true)
    (hnores : ∀ l ∈ lastN 30 (splitLines content), sStarts (jsTrim l) "⎿" = false) :
    isThinking content = true ∧ (parseResponse content lastSent).1 = none := by
  have hany : ((lastN 30 (splitLines content)).any
      (fun l => sStarts (jsTrim l) "⎿")) = false := by
    rw [List.any_eq_false]
    intro l hl
    simp [hnores l hl]
  have hthink : isThinking content = true := by
    unfold isThinking
    rw [List.any_eq_true]
    refine ⟨line, hmem, ?_⟩
    unfold thinkingLine
    simp only [htool, hany]
    simp
  refine ⟨hthink, ?_⟩
  have hfmt : formatResponse content = none := by
    unfold formatResponse
    rw [if_pos hthink]
  rw [parseResponse_none_eq content lastSent hfmt]

theorem busy_toolcall_window_C2_witness :
    isThinking "> go\n⏺ Read(a.txt)\n>" = true ∧
    (parseResponse "> go\n⏺ Read(a.txt)\n>" none).1 = none :=
  busy_toolcall_window_C2 "> go\n⏺ Read(a.txt)\n>" "⏺ Read(a.txt)" none
    (by decide) (by decide) (by decide)

/-- The snapshot refuting C4: two empty-prompt lines follow the user echo. -/
def c4snapshot : String := "> q\n⏺ hello\n>\n⏺ world\n>"

/-- C4 is refuted at `c4snapshot`: the claimed region end is the FIRST
empty-prompt line after the user echo (index 2, yielding just "hello"), but
the code scans backward from the end and stops at the LAST empty-prompt
line (index 4), so the extracted response also contains the text after the
first empty prompt. -/
theorem respEnd_first_prompt_C4_counterexample :
    formatResponse c4snapshot = some "hello\nworld" ∧
    formatResponseSpecC4 c4snapshot = some "hello" ∧
    ¬formatResponse c4snapshot = formatResponseSpecC4 c4snapshot :=
  ⟨by decide, by decide, by decide⟩

/-- C4 amended: the end of the answer region is the LAST empty-prompt line
of the snapshot after the user echo (the first hit of the backward scan),
not the earliest one after the echo. -/
theorem respEnd_last_prompt_C4 (lines : List String) (u j : Nat)
    (hj : j < lines.length) (hu : u < j)
    (hmark : isPromptMarkerOnly (jsTrim (lines.get ⟨j, hj⟩)) = true)
    (hlast : ∀ k (hk : k < lines.length), j < k →
      isPromptMarkerOnly (jsTrim (lines.get ⟨k, hk⟩)) = false) :
    findRespEnd lines u = j := by
  unfold findRespEnd
  have hjd : j - (u + 1) < (lines.drop (u + 1)).length := by
    rw [List.length_drop]
    omega
  have hsum : (u + 1) + (j - (u + 1)) < lines.length := by omega
  have hgetj : (lines.drop (u + 1)).get ⟨j - (u + 1), hjd⟩ = lines.get ⟨j, hj⟩ := by
    rw [← List.get_drop lines hsum]
    congr 1
    simp only [Fin.mk.injEq]
    omega
  have heq : findLastIdx (fun l => isPromptMarkerOnly (jsTrim l))
      (lines.drop (u + 1)) = some (j - (u + 1)) := by
    apply findLastIdx_eq_some
    · rw [hgetj]
      exact hmark
    · intro k hk hgt
      have hsumk : (u + 1) + k < lines.length := by
        rw [List.length_drop] at hk
        omega
      have hgetk : (lines.drop (u + 1)).get ⟨k, hk⟩ =
          lines.get ⟨(u + 1) + k, hsumk⟩ := (List.get_drop lines hsumk).symm
      rw [hgetk]
      exact hlast ((u + 1) + k) hsumk (by omega)
  simp only [heq]
  omega

theorem respEnd_last_prompt_C4_witness :
    findRespEnd ["> q", "⏺ hello", ">", "⏺ world", ">"] 0 = 4 :=
  respEnd_last_prompt_C4 ["> q", "⏺ hello", ">", "⏺ world", ">"] 0 4
    (by decide) (by decide) (by decide)
    (fun k hk hgt => absurd hk
      (by simp only [List.length_cons, List.length_nil]; omega))

/-- C7 is refuted for the first rewrite (src/unnamed/part_001): there
`autoAccept = dangerous || --auto` (line 411) and the poll loop's guard is
only `session.autoAccept && hasPermissionPrompt(current)` (line 288), so a
session started by a `--dangerous` command does receive the affirmative
keystroke when the screen contains permission vocabulary. -/
theorem dangerous_autoaccept_C7_counterexample :
    v1FlagsAutoAccept true false = true ∧
    hasPermissionPromptV1 "Do you want to proceed?" = true ∧
    pollReactV1 true ⟨"s1", "c1", v1FlagsAutoAccept true false⟩ true
      "Do you want to proceed?" none = PollAction.autoAcceptKey :=
  ⟨rfl, by decide, by decide⟩

/-- C7 amended: in bot.js (v6) and the second rewrite, whose auto-accept
guard includes `!session.dangerous`, the poll loop never sends the
affirmative keystroke for a Dangerous-mode session, whatever the snapshot
shows; the first rewrite lacks that guard and misbehaves (see the
counterexample). -/
theorem dangerous_no_autoaccept_C7 (alive : Bool) (s : SessionV6)
    (pendingPresent : Bool) (current : String) (lastSent : Option String)
    (hd : s.dangerous = true) :
    ¬pollReactV6 alive s pendingPresent current lastSent = PollAction.autoAcceptKey ∧
    ¬pollReactV7 alive s pendingPresent current lastSent = PollAction.autoAcceptKey := by
  have hguard : (s.autoAccept && !s.dangerous && hasPermissionPrompt current) = false := by
    rw [hd]
    simp
  constructor
  · unfold pollReactV6
    by_cases h1 : (!alive) = true
    · rw [if_pos h1]
      intro hcon
      exact PollAction.noConfusion hcon
    · rw [if_neg h1]
      by_cases h2 : (!pendingPresent) = true
      · rw [if_pos h2]
        intro hcon
        exact PollAction.noConfusion hcon
      · rw [if_neg h2, if_neg (by simp [hguard])]
        cases hp : (parseResponse current lastSent).1 with
        | some r => simp
        | none => simp
  · unfold pollReactV7
    by_cases h1 : (!alive) = true
    · rw [if_pos h1]
      intro hcon
      exact PollAction.noConfusion hcon
    · rw [if_neg h1]
      by_cases h2 : (!pendingPresent) = true
      · rw [if_pos h2]
        intro hcon
        exact PollAction.noConfusion hcon
      · rw [if_neg h2, if_neg (by simp [hguard])]
        cases hp : (parseResponse current lastSent).1 with
        | some r => simp
        | none => simp

theorem dangerous_no_autoaccept_C7_witness :
    ¬pollReactV6 true ⟨"s1", "c1", true, true⟩ true
      "Do you want to proceed?" none = PollAction.autoAcceptKey ∧
    ¬pollReactV7 true ⟨"s1", "c1", true, true⟩ true
      "Do you want to proceed?" none = PollAction.autoAcceptKey :=
  dangerous_no_autoaccept_C7 true ⟨"s1", "c1", true, true⟩ true
    "Do you want to proceed?" none rfl

/-- C10: in the cleaner's result-line branch, a result line whose stripped
text is 100 characters or longer, under a section that is not `Bash`,
contributes nothing to the cleaned output while still clearing the section
context; only a nonempty non-Bash result text shorter than 100 characters
is rendered, as an indented pointer line (also clearing the section).  The
side hypotheses say the line is not caught by the earlier noise filters. -/
theorem result_line_drop_C10 (cleaned : List String) (sec : Option String)
    (line : String)
    (hres : sStarts (jsTrim line) "⎿" = true)
    (hn1 : ¬(sIncludes (jsTrim line) "|" = true ∧
      (sIncludes (jsTrim line) "%" = true ∨ sIncludes (jsTrim line) "$" = true)))
    (hn2 : sIncludes (jsTrim line) "Claude Code v" = false)
    (hn3 : sIncludes (jsTrim line) "Opus 4" = false)
    (hn4 : sIncludes (jsTrim line) "Share Claude Code" = false)
    (hn5 : sIncludes (jsTrim line) "Auto-update failed" = false)
    (hsec : ¬sec = some "Bash") :
    (100 ≤ (stripResultMarker (jsTrim line)).data.length →
      cleanStep (cleaned, sec) line = (cleaned, none)) ∧
    (¬stripResultMarker (jsTrim line) = "" →
      (stripResultMarker (jsTrim line)).data.length < 100 →
      cleanStep (cleaned, sec) line =
        (cleaned ++ ["  ↳ " ++ stripResultMarker (jsTrim line)], none)) := by
  have hblank : ¬jsTrim line = "" := by
    intro he
    rw [he] at hres
    exact absurd hres (by decide)
  have hsep := sStarts_single_ne (jsTrim line) "⎿" "─" '⎿' '─' rfl rfl (by decide) hres
  have hcirc := sStarts_single_ne (jsTrim line) "⎿" "○" '⎿' '○' rfl rfl (by decide) hres
  have hstar := sStarts_single_ne (jsTrim line) "⎿" "✽" '⎿' '✽' rfl rfl (by decide) hres
  have hdot := sStarts_single_ne (jsTrim line) "⎿" "·" '⎿' '·' rfl rfl (by decide) hres
  have hact1 := sStarts_single_ne (jsTrim line) "⎿" "⏺" '⎿' '⏺' rfl rfl (by decide) hres
  have hact2 := sStarts_single_ne (jsTrim line) "⎿" "●" '⎿' '●' rfl rfl (by decide) hres
  constructor
  · intro hlen
    unfold cleanStep
    rw [if_neg (by simp [hblank, hsep]), if_neg hn1,
      if_neg (by simp [hcirc, hstar]), if_neg (by simp [hdot]),
      if_neg (by simp [hn2, hn3]), if_neg (by simp [hn4]),
      if_neg (by simp [hn5]), if_neg (by simp [hact1, hact2]),
      if_pos hres,
      if_neg (by intro hcon; exact hsec hcon.1),
      if_neg (by intro hcon; omega)]
  · intro htext hlen
    unfold cleanStep
    rw [if_neg (by simp [hblank, hsep]), if_neg hn1,
      if_neg (by simp [hcirc, hstar]), if_neg (by simp [hdot]),
      if_neg (by simp [hn2, hn3]), if_neg (by simp [hn4]),
      if_neg (by simp [hn5]), if_neg (by simp [hact1, hact2]),
      if_pos hres,
      if_neg (by intro hcon; exact hsec hcon.1),
      if_pos ⟨htext, hlen⟩]

theorem result_line_drop_C10_witness :
    cleanStep ([], some "Read") "⎿ aaaaaaaaaaaaaaaaaaaaaaaaaaaaaaaaaaaaaaaaaaaaaaaaaaaaaaaaaaaaaaaaaaaaaaaaaaaaaaaaaaaaaaaaaaaaaaaaaaaa" = ([], none) ∧
    cleanStep ([], some "Read") "⎿ ok" = (["  ↳ ok"], none) :=
  ⟨(result_line_drop_C10 [] (some "Read") "⎿ aaaaaaaaaaaaaaaaaaaaaaaaaaaaaaaaaaaaaaaaaaaaaaaaaaaaaaaaaaaaaaaaaaaaaaaaaaaaaaaaaaaaaaaaaaaaaaaaaaaa"
      (by decide) (by decide) (by decide) (by decide) (by decide) (by decide)
      (by decide)).1 (by decide),
   (result_line_drop_C10 [] (some "Read") "⎿ ok"
      (by decide) (by decide) (by decide) (by decide) (by decide) (by decide)
      (by decide)).2 (by decide) (by decide)⟩

end Fufu
